import Mathlib

/-!
Shallow embedding of `xodraw.py`, a turtle-graphics renderer for an X's and
O's (tic-tac-toe) board, together with proofs about the drawing behaviour of
its five entry points (`drawNewBoard`, `drawMarker`, `drawWin`, `drawBoard`,
`drawGame`).

The external ColabTurtle drawing surface is modelled as a trace: each call to
a turtle primitive appends one `Instr` to the list a function returns.  The
stateful Python functions become pure Lean functions from their arguments to
the instruction trace they would emit.  Python exceptions (IndexError from
list indexing, KeyError from a dict lookup) are modelled explicitly: the
board/game renderers return the trace emitted so far together with an
`Option PyErr` that records the exception that aborted the call, if any.

Numeric conventions: the source only ever feeds non-negative pixel
quantities (sizes, margins, row/col positions) to the geometry, so those are
`Nat`, with `Nat` floor division standing for Python's `math.floor(a / b)`
on non-negative ints.  `numMoves` and the loop index of `drawGame` are
genuine Python ints that go negative, so they are `Int`, and Python's
negative list indexing is modelled by `pyGetI`.  The two float constants of
the source are modelled exactly: `math.floor(cellSize * 0.2)` as
`cellSize / 5` and `math.floor(1.4 * cellSize)` as `7 * cellSize / 5`
(IEEE-754 rounding of `0.2`/`1.4` can shift the latter by one at multiples
of five; no theorem below depends on the exact count of circle steps).
The angle passed to `right` is kept as an exact rational.
-/

/-- One instruction issued to the ColabTurtle drawing surface. -/
inductive Instr where
  | initializeTurtle (speed : Nat) (canvasSize : Nat × Nat)
  | hideturtle
  | color (c : String)
  | penup
  | pendown
  | goto (x y : Nat)
  | right (angle : ℚ)
  | forward (dist : Nat)
deriving DecidableEq, Repr

/-- A Python runtime error reaching the caller of a draw function. -/
inductive PyErr where
  | indexError
  | keyError (key : String)
deriving DecidableEq, Repr

/-- ASCII lowercasing of one character, the effect of Python's `str.lower`
on the letters this module compares against. -/
def lowerChar (c : Char) : Char :=
  if 65 ≤ c.toNat ∧ c.toNat ≤ 90 then Char.ofNat (c.toNat + 32) else c

/-- Python's `team.lower()` (ASCII fragment). -/
def strLower (s : String) : String := ⟨s.data.map lowerChar⟩

/-- Python dict lookup `d[k]` on a literal-backed dict, as an association
list: `none` models the KeyError case. -/
def pyDictGet (d : List (String × String)) (k : String) : Option String :=
  match d with
  | [] => none
  | (k', v) :: rest => if k = k' then some v else pyDictGet rest k

/-- Python list indexing `l[i]` with an `int` index: a negative index counts
from the end of the list; `none` models the IndexError case. -/
def pyGetI {α : Type} (l : List α) (i : Int) : Option α :=
  if i < 0 then
    if (l.length : Int) + i < 0 then none else l.get? ((l.length : Int) + i).toNat
  else
    l.get? i.toNat

/-- `drawNewBoard(size, colour, margin)` of xodraw.py: initialize the canvas
and draw the four grid lines of a blank board. -/
def drawNewBoard (size : Nat) (colour : String) (margin : Nat) : List Instr :=
  let cellSize := size / 3
  let boardSize := (cellSize * 3, cellSize * 3)
  let canvasSize := (size + 2 * margin, size + 2 * margin)
  [Instr.initializeTurtle 10 canvasSize, Instr.hideturtle, Instr.color colour,
   -- left vertical line
   Instr.penup, Instr.goto (margin + cellSize) margin,
   Instr.pendown, Instr.goto (margin + cellSize) (margin + boardSize.2),
   -- right vertical line
   Instr.penup, Instr.goto (margin + boardSize.1 - cellSize) margin,
   Instr.pendown, Instr.goto (margin + boardSize.1 - cellSize) (margin + boardSize.2),
   -- upper horizontal line
   Instr.penup, Instr.goto margin (margin + cellSize),
   Instr.pendown, Instr.goto (margin + boardSize.1) (margin + cellSize),
   -- lower horizontal line
   Instr.penup, Instr.goto margin (margin + boardSize.2 - cellSize),
   Instr.pendown, Instr.goto (margin + boardSize.1) (margin + boardSize.2 - cellSize)]

/-- `drawMarker(team, pos, size, colour, margin)` of xodraw.py: the
instructions drawing one X or O marker (or nothing, for any other team
string) in cell `pos = (row, col)`.  The nested O loop of the source runs
`steps * step_len` identical iterations of `right(angle); forward(1)`. -/
def drawMarker (team : String) (pos : Nat × Nat) (size : Nat) (colour : String)
    (margin : Nat) : List Instr :=
  let cellSize := size / 3
  let x_offset := cellSize / 5                 -- math.floor(cellSize * 0.2)
  let o_offset_horizontal := cellSize / 5      -- math.floor(cellSize * 0.2)
  let o_offset_vertical := cellSize / 2        -- math.floor(cellSize / 2)
  [Instr.hideturtle, Instr.color colour] ++
  (if strLower team = "o" then
    let steps := 7 * cellSize / 5 - o_offset_horizontal * 2  -- floor(1.4 * cellSize) - 2 * off
    let step_len := 2
    [Instr.penup,
     Instr.goto (margin + cellSize * pos.2 + o_offset_horizontal)
                (margin + cellSize * pos.1 + o_offset_vertical),
     Instr.pendown] ++
    (List.replicate (steps * step_len)
      [Instr.right (360 / ((steps * step_len : Nat) : ℚ)), Instr.forward 1]).flatten
  else if strLower team = "x" then
    [Instr.penup,
     Instr.goto (margin + cellSize * pos.2 + x_offset)
                (margin + cellSize * pos.1 + x_offset),
     Instr.pendown,
     Instr.goto (margin + cellSize * pos.2 + (cellSize - x_offset))
                (margin + cellSize * pos.1 + (cellSize - x_offset)),
     Instr.penup,
     Instr.goto (margin + cellSize * pos.2 + (cellSize - x_offset))
                (margin + cellSize * pos.1 + x_offset),
     Instr.pendown,
     Instr.goto (margin + cellSize * pos.2 + x_offset)
                (margin + cellSize * pos.1 + (cellSize - x_offset))]
  else [])

/-- `drawWin(startPos, endPos, size, colour, margin)` of xodraw.py: the win
line between the centers of two cells. -/
def drawWin (startPos endPos : Nat × Nat) (size : Nat) (colour : String)
    (margin : Nat) : List Instr :=
  let cellSize := size / 3
  let offset := cellSize / 2
  [Instr.hideturtle, Instr.color colour,
   Instr.penup,
   Instr.goto (margin + cellSize * startPos.2 + offset)
              (margin + cellSize * startPos.1 + offset),
   Instr.pendown,
   Instr.goto (margin + cellSize * endPos.2 + offset)
              (margin + cellSize * endPos.1 + offset)]

/-- One call to `drawMarker` made by `drawBoard`/`drawGame`, recorded with
its arguments (an instrumentation of the trace: `markerTrace` recovers the
instructions of the call). -/
structure MarkerCall where
  team : String
  pos : Nat × Nat
  size : Nat
  colour : String
  margin : Nat
deriving DecidableEq, Repr

/-- The instructions a recorded `drawMarker` call emits. -/
def markerTrace (c : MarkerCall) : List Instr :=
  drawMarker c.team c.pos c.size c.colour c.margin

/-- The instructions of a sequence of recorded `drawMarker` calls. -/
def callsTrace (cs : List MarkerCall) : List Instr := cs.flatMap markerTrace

/-- Result of a `drawBoard`/`drawGame` call: the instruction trace emitted,
the sequence of `drawMarker` calls made (instrumentation), and the Python
error that aborted the call, if any. -/
structure RunResult where
  trace : List Instr
  calls : List MarkerCall
  err : Option PyErr
deriving DecidableEq, Repr

/-- The default `xy_colour` dict literal of xodraw.py. -/
def xy_colour_default : List (String × String) :=
  [("X", "red"), ("O", "green"), ("", "white")]

/-- The `for i in range(firstMove, lastMove)` loop body of `drawGame`,
iterated `count` times from index `i`: look up `game[i]`, look up its colour,
draw the marker, or abort with the Python error.  Python's
`range(firstMove, lastMove)` is empty when `lastMove ≤ firstMove`, which the
caller renders as `count = 0`. -/
def gameLoop (game : List (Nat × Nat × String)) (xy : List (String × String))
    (size margin : Nat) : Int → Nat → List MarkerCall × Option PyErr
  | _, 0 => ([], none)
  | i, Nat.succ n =>
    match pyGetI game i with
    | none => ([], some PyErr.indexError)
    | some (row, col, team) =>
      match pyDictGet xy team with
      | none => ([], some (PyErr.keyError team))
      | some c =>
        let rest := gameLoop game xy size margin (i + 1) n
        (⟨team, (row, col), size, c, margin⟩ :: rest.1, rest.2)

/-- `drawGame(game, numMoves, size, board_colour, xy_colour, margin,
newBoard)` of xodraw.py. -/
def drawGame (game : List (Nat × Nat × String)) (numMoves : Int) (size : Nat)
    (board_colour : String) (xy_colour : List (String × String)) (margin : Nat)
    (newBoard : Bool) : RunResult :=
  let pre := if game.length < 1 || newBoard then drawNewBoard size board_colour margin else []
  let firstMove : Int := if numMoves < 1 then 0 else (game.length : Int) - numMoves
  let lastMove : Int := game.length
  let res := gameLoop game xy_colour size margin firstMove (lastMove - firstMove).toNat
  ⟨pre ++ callsTrace res.1, res.1, res.2⟩

/-- The `for i in range(len(board) * len(board[0]))` loop body of
`drawBoard`, iterated `count` times from index `i`: note the source computes
`row = math.floor(i / len(board))` and `col = i % len(board)`, both with the
row count. -/
def boardLoop (board : List (List String)) (xy : List (String × String))
    (size margin : Nat) : Nat → Nat → List MarkerCall × Option PyErr
  | _, 0 => ([], none)
  | i, Nat.succ n =>
    let rows := board.length
    let row := i / rows
    let col := i % rows
    match (board.get? row).bind (fun r => r.get? col) with
    | none => ([], some PyErr.indexError)
    | some team =>
      match pyDictGet xy team with
      | none => ([], some (PyErr.keyError team))
      | some c =>
        let rest := boardLoop board xy size margin (i + 1) n
        (⟨team, (row, col), size, c, margin⟩ :: rest.1, rest.2)

/-- `drawBoard(board, size, board_colour, xy_colour, margin, newBoard)` of
xodraw.py. -/
def drawBoard (board : List (List String)) (size : Nat) (board_colour : String)
    (xy_colour : List (String × String)) (margin : Nat) (newBoard : Bool) :
    RunResult :=
  let pre := if board.length == 0 || newBoard then drawNewBoard size board_colour margin else []
  if board.length < 1 then ⟨pre, [], none⟩
  else if (board.headD []).length < 1 then ⟨pre, [], none⟩
  else
    let res := boardLoop board xy_colour size margin 0 (board.length * (board.headD []).length)
    ⟨pre ++ callsTrace res.1, res.1, res.2⟩

/-- A penup/goto/pendown/goto line segment from `(x1, y1)` to `(x2, y2)`,
the shape in which the grid and win lines appear in a trace. -/
def lineSeg (x1 y1 x2 y2 : Nat) : List Instr :=
  [Instr.penup, Instr.goto x1 y1, Instr.pendown, Instr.goto x2 y2]

/-- Whether an instruction is the canvas (re)initialization that starts a
blank-board draw. -/
def isInit : Instr → Bool
  | Instr.initializeTurtle _ _ => true
  | _ => false

/-- The `drawMarker` call `drawBoard`/`drawGame` makes for a move
`(row, col, team)`: colour looked up in `xy` (only used where the lookup
succeeds; `getD` supplies an irrelevant default). -/
def mkCall (xy : List (String × String)) (size margin : Nat)
    (m : Nat × Nat × String) : MarkerCall :=
  ⟨m.2.2, (m.1, m.2.1), size, (pyDictGet xy m.2.2).getD "", margin⟩

/-- The all-empty 3×3 board. -/
def emptyBoard3 : List (List String) := [["", "", ""], ["", "", ""], ["", "", ""]]

-- sanity examples (concrete evaluations of the embedding)
example : pyGetI ([10, 20, 30] : List Nat) (-1) = some 30 := by decide
example : pyGetI ([10, 20, 30] : List Nat) (-4) = none := by decide
example : pyGetI ([] : List Nat) (-1) = none := by decide
example : pyDictGet xy_colour_default "O" = some "green" := by decide
example : pyDictGet xy_colour_default "o" = none := by decide
example : strLower "XyZ" = "xyz" := by decide

/-! ### Helper lemmas -/

theorem char_toNat_ofNat (n : Nat) (h1 : 97 ≤ n) (h2 : n ≤ 122) :
    (Char.ofNat n).toNat = n := by
  have hv : n.isValidChar := Or.inl (by omega)
  simp [Char.ofNat, hv, Char.ofNatAux, Char.toNat, UInt32.toNat]

theorem lowerChar_idem (c : Char) : lowerChar (lowerChar c) = lowerChar c := by
  by_cases h : 65 ≤ c.toNat ∧ c.toNat ≤ 90
  · have ht : (Char.ofNat (c.toNat + 32)).toNat = c.toNat + 32 :=
      char_toNat_ofNat _ (by omega) (by omega)
    have h1 : lowerChar c = Char.ofNat (c.toNat + 32) := by
      unfold lowerChar; rw [if_pos h]
    rw [h1]
    unfold lowerChar
    rw [if_neg]
    rw [ht]
    omega
  · have h1 : lowerChar c = c := by unfold lowerChar; rw [if_neg h]
    rw [h1]
    exact h1

theorem strLower_idem (s : String) : strLower (strLower s) = strLower s := by
  unfold strLower
  simp [List.map_map, Function.comp_def, lowerChar_idem]

/-! ### Claim theorems: geometry (C2, C3) and trivial board (C6) -/

/-- C2: for every size `S` and margin `M`, `drawNewBoard` emits the canvas
setup followed by exactly four grid line segments whose endpoints are
determined by `cellSize = ⌊S / 3⌋`: vertical lines at `x = M + cellSize` and
`x = M + 2 * cellSize` spanning `y ∈ [M, M + 3 * cellSize]`, then the
analogous horizontal lines. -/
theorem drawNewBoard_grid (S M : Nat) (colour : String) :
    drawNewBoard S colour M =
      [Instr.initializeTurtle 10 (S + 2 * M, S + 2 * M), Instr.hideturtle,
       Instr.color colour] ++
      lineSeg (M + S / 3) M (M + S / 3) (M + 3 * (S / 3)) ++
      lineSeg (M + 2 * (S / 3)) M (M + 2 * (S / 3)) (M + 3 * (S / 3)) ++
      lineSeg M (M + S / 3) (M + 3 * (S / 3)) (M + S / 3) ++
      lineSeg M (M + 2 * (S / 3)) (M + 3 * (S / 3)) (M + 2 * (S / 3)) := by
  simp only [drawNewBoard, lineSeg, List.append_assoc, List.cons_append,
    List.nil_append, List.cons.injEq, Instr.goto.injEq, and_true, true_and]
  omega

/-- C3: for all cell positions, size and margin, `drawWin` emits the pen
setup and exactly one line segment joining the centers of the start and end
cells, the center of cell `(r, c)` being
`(M + cellSize * c + ⌊cellSize / 2⌋, M + cellSize * r + ⌊cellSize / 2⌋)`
with `cellSize = ⌊S / 3⌋`; at `size = 180`, `margin = 30` this is the line
from `(60, 60)` to `(180, 180)` for cells `(0,0)` and `(2,2)`. -/
theorem drawWin_center_line (sp ep : Nat × Nat) (S M : Nat) (colour : String) :
    drawWin sp ep S colour M =
      [Instr.hideturtle, Instr.color colour] ++
      lineSeg (M + (S / 3) * sp.2 + (S / 3) / 2) (M + (S / 3) * sp.1 + (S / 3) / 2)
              (M + (S / 3) * ep.2 + (S / 3) / 2) (M + (S / 3) * ep.1 + (S / 3) / 2) := by
  simp [drawWin, lineSeg]

/-- C6: `drawBoard` on the empty board draws exactly one blank board (the
full `drawNewBoard` trace and nothing else) and returns with no marker calls
and no error, for every size, colour mapping, margin and `newBoard` flag. -/
theorem drawBoard_empty_board (S M : Nat) (bc : String)
    (xy : List (String × String)) (nb : Bool) :
    drawBoard [] S bc xy M nb = ⟨drawNewBoard S bc M, [], none⟩ := by
  simp [drawBoard]

/-! ### Claim theorems: drawMarker (C7, C9) -/

/-- C7: marker drawing is case-insensitive: `drawMarker "x"` and
`drawMarker "X"` emit identical instructions, and in general `drawMarker`
with team `t` emits the same instructions as with `t.lower()`. -/
theorem drawMarker_case_insensitive (team : String) (pos : Nat × Nat)
    (S M : Nat) (colour : String) :
    drawMarker "x" pos S colour M = drawMarker "X" pos S colour M ∧
    drawMarker team pos S colour M = drawMarker (strLower team) pos S colour M := by
  constructor
  · have hx : strLower "X" = "x" := by decide
    have hx' : strLower "x" = "x" := by decide
    simp only [drawMarker, hx, hx']
  · simp only [drawMarker, strLower_idem]

/-- C9: for every team string whose lowercase form is neither `"x"` nor
`"o"` (the empty string included), `drawMarker` emits only the cursor-hiding
and pen-colour setup instructions: no pen movement and no drawing. -/
theorem drawMarker_other_team_noop (team : String) (pos : Nat × Nat)
    (S M : Nat) (colour : String)
    (hx : strLower team ≠ "x") (ho : strLower team ≠ "o") :
    drawMarker team pos S colour M = [Instr.hideturtle, Instr.color colour] := by
  simp [drawMarker, hx, ho]

/-- Witness for C9 at the empty team string. -/
theorem drawMarker_other_team_noop_witness :
    strLower "" ≠ "x" ∧ strLower "" ≠ "o" ∧
    drawMarker "" (1, 1) 180 "white" 30 = [Instr.hideturtle, Instr.color "white"] :=
  ⟨by decide, by decide,
   drawMarker_other_team_noop "" (1, 1) 180 30 "white" (by decide) (by decide)⟩

/-! ### gameLoop lemmas -/

/-- A run of `gameLoop` over non-negative indices `i, i+1, …, i+n-1`, all in
range and with every looked-up team present in the colour dict, records
exactly the corresponding window of the game, in order, with no error. -/
theorem gameLoop_nonneg (game : List (Nat × Nat × String))
    (xy : List (String × String)) (S M : Nat) :
    ∀ (n i : Nat), i + n ≤ game.length →
      (∀ m ∈ (game.drop i).take n, (pyDictGet xy m.2.2).isSome) →
      gameLoop game xy S M (i : Int) n =
        (((game.drop i).take n).map (mkCall xy S M), none) := by
  intro n
  induction n with
  | zero => intro i _ _; simp [gameLoop]
  | succ n ih =>
    intro i h hk
    have hi : i < game.length := by omega
    rcases hm : game[i] with ⟨r, c, t⟩
    have hget : pyGetI game (i : Int) = some (r, c, t) := by
      unfold pyGetI
      rw [if_neg (by omega)]
      rw [Int.toNat_natCast, List.get?_eq_getElem?, List.getElem?_eq_getElem hi, hm]
    have hdt : (game.drop i).take (n + 1) = (r, c, t) :: ((game.drop (i + 1)).take n) := by
      have h1 : game.drop i = (r, c, t) :: game.drop (i + 1) := by
        rw [← hm]
        exact (List.getElem_cons_drop game i hi).symm
      rw [h1, List.take_succ_cons]
    have hksome : (pyDictGet xy t).isSome := by
      apply hk (r, c, t)
      rw [hdt]
      exact List.mem_cons_self _ _
    obtain ⟨col, hcol⟩ := Option.isSome_iff_exists.mp hksome
    have hcast : (i : Int) + 1 = ((i + 1 : Nat) : Int) := by push_cast; ring
    have ih' := ih (i + 1) (by omega) (by
      intro m hmem
      apply hk m
      rw [hdt]
      exact List.mem_cons_of_mem _ hmem)
    simp only [gameLoop, hget, hcol, hcast, ih', hdt, List.map_cons]
    simp [mkCall, hcol]

/-- Splitting a `gameLoop` run: if the first `a` iterations complete without
error, a run of `a + b` iterations is the first run followed by a run of `b`
iterations starting `a` indices later. -/
theorem gameLoop_split (game : List (Nat × Nat × String))
    (xy : List (String × String)) (S M : Nat) :
    ∀ (a : Nat) (b : Nat) (i : Int) (ca : List MarkerCall),
      gameLoop game xy S M i a = (ca, none) →
      gameLoop game xy S M i (a + b) =
        (ca ++ (gameLoop game xy S M (i + a) b).1,
         (gameLoop game xy S M (i + a) b).2) := by
  intro a
  induction a with
  | zero =>
    intro b i ca h
    have hca : ca = [] := by
      have : (([] : List MarkerCall), (none : Option PyErr)) = (ca, none) := by
        rw [← h]; simp [gameLoop]
      exact (Prod.mk.injEq _ _ _ _).mp this.symm |>.1
    subst hca
    simp
  | succ a ih =>
    intro b i ca h
    have hs : Nat.succ a + b = Nat.succ (a + b) := Nat.succ_add a b
    rw [hs]
    rcases hg : pyGetI game i with _ | m
    · exfalso
      rw [show gameLoop game xy S M i (Nat.succ a) =
            ([], some PyErr.indexError) by simp [gameLoop, hg]] at h
      simp at h
    · rcases m with ⟨r, c, t⟩
      rcases hd : pyDictGet xy t with _ | col
      · exfalso
        rw [show gameLoop game xy S M i (Nat.succ a) =
              ([], some (PyErr.keyError t)) by simp [gameLoop, hg, hd]] at h
        simp at h
      · have hun : gameLoop game xy S M i (Nat.succ a) =
            (⟨t, (r, c), S, col, M⟩ :: (gameLoop game xy S M (i + 1) a).1,
             (gameLoop game xy S M (i + 1) a).2) := by
          simp [gameLoop, hg, hd]
        rw [hun] at h
        have htl : gameLoop game xy S M (i + 1) a =
            ((gameLoop game xy S M (i + 1) a).1, none) := by
          have h2 := (Prod.mk.injEq _ _ _ _).mp h |>.2
          rw [Prod.ext_iff]
          exact ⟨rfl, h2⟩
        have h1 := (Prod.mk.injEq _ _ _ _).mp h |>.1
        have ih' := ih b (i + 1) (gameLoop game xy S M (i + 1) a).1 htl
        have hun2 : gameLoop game xy S M i (Nat.succ (a + b)) =
            (⟨t, (r, c), S, col, M⟩ :: (gameLoop game xy S M (i + 1) (a + b)).1,
             (gameLoop game xy S M (i + 1) (a + b)).2) := by
          simp [gameLoop, hg, hd]
        rw [hun2, ih']
        have hcast : i + 1 + (a : Int) = i + ((Nat.succ a : Nat) : Int) := by
          push_cast; ring
        rw [hcast, ← h1]
        simp

/-- A run of `gameLoop` entirely over negative indices `i, …, i+n-1` (all of
them at least `-length`), with every looked-up team present in the colour
dict: Python's negative indexing makes it record the slice of the game
starting at `length + i`, in order, with no error. -/
theorem gameLoop_neg (game : List (Nat × Nat × String))
    (xy : List (String × String)) (S M : Nat) :
    ∀ (n : Nat) (i : Int), (0 < n → i < 0) → 0 ≤ (game.length : Int) + i →
      i + n ≤ 0 →
      (∀ m ∈ (game.drop ((game.length : Int) + i).toNat).take n,
        (pyDictGet xy m.2.2).isSome) →
      gameLoop game xy S M i n =
        (((game.drop ((game.length : Int) + i).toNat).take n).map (mkCall xy S M),
         none) := by
  intro n
  induction n with
  | zero => intro i _ _ _ _; simp [gameLoop]
  | succ n ih =>
    intro i hneg h0 hend hk
    have hi : i < 0 := hneg (by omega)
    have hj : ((game.length : Int) + i).toNat < game.length := by omega
    rcases hm : game[((game.length : Int) + i).toNat] with ⟨r, c, t⟩
    have hget : pyGetI game i = some (r, c, t) := by
      unfold pyGetI
      rw [if_pos hi, if_neg (by omega), List.get?_eq_getElem?,
        List.getElem?_eq_getElem hj, hm]
    have hdt : (game.drop ((game.length : Int) + i).toNat).take (n + 1) =
        (r, c, t) :: ((game.drop (((game.length : Int) + i).toNat + 1)).take n) := by
      have h1 : game.drop ((game.length : Int) + i).toNat =
          (r, c, t) :: game.drop (((game.length : Int) + i).toNat + 1) := by
        rw [← hm]
        exact (List.getElem_cons_drop game _ hj).symm
      rw [h1, List.take_succ_cons]
    have hksome : (pyDictGet xy t).isSome := by
      apply hk (r, c, t)
      rw [hdt]
      exact List.mem_cons_self _ _
    obtain ⟨col, hcol⟩ := Option.isSome_iff_exists.mp hksome
    have hjsucc : ((game.length : Int) + (i + 1)).toNat =
        ((game.length : Int) + i).toNat + 1 := by omega
    have ih' := ih (i + 1) (by omega) (by omega) (by omega) (by
      intro m hmem
      apply hk m
      rw [hdt, hjsucc] at *
      exact List.mem_cons_of_mem _ hmem)
    rw [hjsucc] at ih'
    simp only [gameLoop, hget, hcol, ih', hdt, List.map_cons]
    simp [mkCall, hcol]

/-! ### Claim theorems: drawGame (C1, C5, C10) -/

/-- C1 (amended): for a game whose teams are all keys of the colour mapping
and `numMoves ≤ length game`: if `1 ≤ numMoves`, `drawGame` draws markers
for exactly the last `numMoves` moves in their original order; if
`numMoves < 1`, it draws every move from the first to the last, in order.
(The claim's unrestricted quantification fails for `numMoves > length`.) -/
theorem drawGame_window (game : List (Nat × Nat × String)) (numMoves : Int)
    (S M : Nat) (bc : String) (xy : List (String × String))
    (hk : ∀ m ∈ game, (pyDictGet xy m.2.2).isSome) :
    (1 ≤ numMoves → numMoves ≤ (game.length : Int) →
      (drawGame game numMoves S bc xy M false).calls =
        (game.drop (game.length - numMoves.toNat)).map (mkCall xy S M) ∧
      (drawGame game numMoves S bc xy M false).err = none) ∧
    (numMoves < 1 →
      (drawGame game numMoves S bc xy M false).calls = game.map (mkCall xy S M) ∧
      (drawGame game numMoves S bc xy M false).err = none) := by
  constructor
  · intro h1 h2
    have hnm : ¬ (numMoves < 1) := by omega
    have hcast : (game.length : Int) - numMoves =
        ((game.length - numMoves.toNat : Nat) : Int) := by omega
    have hcount : ((game.length : Int) - ((game.length - numMoves.toNat : Nat) : Int)).toNat =
        numMoves.toNat := by omega
    have hrun := gameLoop_nonneg game xy S M numMoves.toNat
      (game.length - numMoves.toNat) (by omega)
      (fun m hm => hk m (List.mem_of_mem_drop (List.mem_of_mem_take hm)))
    have htake : (game.drop (game.length - numMoves.toNat)).take numMoves.toNat =
        game.drop (game.length - numMoves.toNat) :=
      List.take_of_length_le (by rw [List.length_drop]; omega)
    rw [htake] at hrun
    simp only [drawGame, if_neg hnm, hcast, hcount, hrun]
    exact ⟨trivial, trivial⟩
  · intro h1
    have hrun := gameLoop_nonneg game xy S M game.length 0 (by omega)
      (fun m hm => hk m (List.mem_of_mem_drop (List.mem_of_mem_take hm)))
    simp only [List.drop_zero, List.take_length, Nat.cast_zero] at hrun
    have hcount : ((game.length : Int) - 0).toNat = game.length := by omega
    simp only [drawGame, if_pos h1, hcount, hrun]
    exact ⟨trivial, trivial⟩

/-- Counterexample to C1 as stated: with a one-move game and `numMoves = 2`,
`drawGame` makes two marker calls, drawing the single move twice, not "the
last 2 moves of the game". -/
theorem drawGame_window_cex :
    (drawGame [((0 : Nat), (0 : Nat), "X")] 2 180 "white" xy_colour_default 30
      false).calls =
      [⟨"X", (0, 0), 180, "red", 30⟩, ⟨"X", (0, 0), 180, "red", 30⟩] := by decide

/-- Witness for C1's amended theorem on a three-move game with
`numMoves = 2`. -/
theorem drawGame_window_witness :
    (∀ m ∈ [((0 : Nat), (0 : Nat), "X"), ((1 : Nat), (1 : Nat), "O"),
            ((2 : Nat), (2 : Nat), "X")],
      (pyDictGet xy_colour_default m.2.2).isSome) ∧
    (1 : Int) ≤ 2 ∧
    (2 : Int) ≤ (([((0 : Nat), (0 : Nat), "X"), ((1 : Nat), (1 : Nat), "O"),
            ((2 : Nat), (2 : Nat), "X")].length : Nat) : Int) ∧
    ((drawGame [((0 : Nat), (0 : Nat), "X"), ((1 : Nat), (1 : Nat), "O"),
            ((2 : Nat), (2 : Nat), "X")] 2 180 "white" xy_colour_default 30
        false).calls =
      ([((0 : Nat), (0 : Nat), "X"), ((1 : Nat), (1 : Nat), "O"),
            ((2 : Nat), (2 : Nat), "X")].drop
        ([((0 : Nat), (0 : Nat), "X"), ((1 : Nat), (1 : Nat), "O"),
            ((2 : Nat), (2 : Nat), "X")].length - (2 : Int).toNat)).map
        (mkCall xy_colour_default 180 30) ∧
     (drawGame [((0 : Nat), (0 : Nat), "X"), ((1 : Nat), (1 : Nat), "O"),
            ((2 : Nat), (2 : Nat), "X")] 2 180 "white" xy_colour_default 30
        false).err = none) :=
  ⟨by decide, by decide, by decide,
   (drawGame_window _ 2 180 30 "white" xy_colour_default (by decide)).1
     (by decide) (by decide)⟩

/-- C5 (amended): `drawGame` on the empty move list always first draws
exactly one blank board (the trace is the `drawNewBoard` trace and nothing
else) and draws no markers; it completes without error when `numMoves < 1`,
but fails with an IndexError (from `game[-numMoves]` on the empty list) when
`numMoves ≥ 1`. -/
theorem drawGame_empty_game (numMoves : Int) (S M : Nat) (bc : String)
    (xy : List (String × String)) (nb : Bool) :
    (drawGame [] numMoves S bc xy M nb).trace = drawNewBoard S bc M ∧
    (drawGame [] numMoves S bc xy M nb).calls = [] ∧
    (drawGame [] numMoves S bc xy M nb).err =
      if numMoves < 1 then none else some PyErr.indexError := by
  by_cases h : numMoves < 1
  · simp [drawGame, gameLoop, h, callsTrace]
  · obtain ⟨k, rfl⟩ : ∃ k : Nat, numMoves = (k : Int) + 1 :=
      ⟨(numMoves - 1).toNat, by omega⟩
    have hgl : gameLoop [] xy S M (0 - ((k : Int) + 1)) (k + 1) =
        ([], some PyErr.indexError) := by
      have hnone : pyGetI ([] : List (Nat × Nat × String)) (0 - ((k : Int) + 1)) = none := by
        unfold pyGetI
        rw [if_pos (by omega),
          if_pos (by simp only [List.length_nil, Nat.cast_zero]; omega)]
      simp only [gameLoop, hnone]
    have hcount : ((0 : Int) - (0 - ((k : Int) + 1))).toNat = k + 1 := by omega
    simp only [drawGame, List.length_nil, Nat.cast_zero, if_neg h,
      show (decide ((0 : Nat) < 1)) = true from rfl, Bool.true_or, if_true,
      hcount, hgl, callsTrace, List.flatMap_nil, List.append_nil]
    exact ⟨trivial, trivial, trivial⟩

/-- Counterexample to C5 as stated: at `numMoves = 1` (the source default)
the call on the empty game fails with an IndexError instead of completing. -/
theorem drawGame_empty_game_cex :
    (drawGame [] 1 180 "white" xy_colour_default 30 false).err =
      some PyErr.indexError := by decide

/-- C10 (amended): for a non-empty game of length `L` with all teams in the
colour dict and `L < numMoves ≤ 2·L`, `drawGame` does not fail: the negative
first index selects from the end of the list, so it draws `numMoves` markers
— the last `numMoves − L` moves of the game in order, then the entire game —
drawing those trailing moves twice.  (For `numMoves > 2·L` the claim fails:
the first index falls below `−L` and indexing raises an IndexError.) -/
theorem drawGame_overflow (game : List (Nat × Nat × String)) (numMoves : Int)
    (S M : Nat) (bc : String) (xy : List (String × String))
    (hk : ∀ m ∈ game, (pyDictGet xy m.2.2).isSome)
    (h1 : (game.length : Int) < numMoves) (h2 : numMoves ≤ 2 * game.length) :
    (drawGame game numMoves S bc xy M false).calls =
      ((game.drop (2 * game.length - numMoves.toNat)) ++ game).map
        (mkCall xy S M) ∧
    (drawGame game numMoves S bc xy M false).err = none ∧
    (drawGame game numMoves S bc xy M false).calls.length = numMoves.toNat := by
  have hnm : ¬ (numMoves < 1) := by omega
  -- the negative prefix of the index range
  set a : Nat := numMoves.toNat - game.length with ha
  have hfm : (game.length : Int) - numMoves < 0 := by omega
  have hjn : (((game.length : Nat) : Int) + ((game.length : Int) - numMoves)).toNat =
      2 * game.length - numMoves.toNat := by omega
  have hneg := gameLoop_neg game xy S M a ((game.length : Int) - numMoves)
    (fun _ => hfm) (by omega) (by omega)
    (fun m hm => hk m (List.mem_of_mem_drop (List.mem_of_mem_take hm)))
  rw [hjn] at hneg
  have htake : (game.drop (2 * game.length - numMoves.toNat)).take a =
      game.drop (2 * game.length - numMoves.toNat) :=
    List.take_of_length_le (by rw [List.length_drop]; omega)
  rw [htake] at hneg
  -- the non-negative tail of the index range
  have hpos := gameLoop_nonneg game xy S M game.length 0 (by omega)
    (fun m hm => hk m (List.mem_of_mem_drop (List.mem_of_mem_take hm)))
  simp only [List.drop_zero, List.take_length, Nat.cast_zero] at hpos
  -- glue the two runs
  have hsplit := gameLoop_split game xy S M a game.length
    ((game.length : Int) - numMoves) _ hneg
  have hz : (game.length : Int) - numMoves + (a : Int) = 0 := by omega
  rw [hz, hpos] at hsplit
  have hcnt : ((game.length : Int) - ((game.length : Int) - numMoves)).toNat =
      a + game.length := by omega
  have hcalls :
      (drawGame game numMoves S bc xy M false).calls =
        ((game.drop (2 * game.length - numMoves.toNat)).map (mkCall xy S M) ++
          game.map (mkCall xy S M)) ∧
      (drawGame game numMoves S bc xy M false).err = none := by
    simp only [drawGame, if_neg hnm, hcnt, hsplit]
    exact ⟨trivial, trivial⟩
  refine ⟨?_, hcalls.2, ?_⟩
  · rw [hcalls.1, List.map_append]
  · rw [hcalls.1]
    simp only [List.length_append, List.length_map, List.length_drop]
    omega

/-- Counterexample to C10 as stated: a one-move game with `numMoves = 3`
makes the first index `-2` fall below `-length`, so the call fails with an
IndexError instead of drawing `numMoves` markers. -/
theorem drawGame_overflow_cex :
    (drawGame [((0 : Nat), (0 : Nat), "X")] 3 180 "white" xy_colour_default 30
      false).err = some PyErr.indexError := by decide

/-- A concrete two-move game used by the C10 witness. -/
def gameW2 : List (Nat × Nat × String) := [(0, 0, "X"), (1, 1, "O")]

/-- Witness for C10's amended theorem: a two-move game with `numMoves = 3`
draws the last move, then the whole game. -/
theorem drawGame_overflow_witness :
    (∀ m ∈ gameW2, (pyDictGet xy_colour_default m.2.2).isSome) ∧
    ((gameW2.length : Int) < 3 ∧ (3 : Int) ≤ 2 * gameW2.length) ∧
    ((drawGame gameW2 3 180 "white" xy_colour_default 30 false).calls =
      ((gameW2.drop (2 * gameW2.length - (3 : Int).toNat)) ++ gameW2).map
        (mkCall xy_colour_default 180 30) ∧
     (drawGame gameW2 3 180 "white" xy_colour_default 30 false).err = none ∧
     (drawGame gameW2 3 180 "white" xy_colour_default 30 false).calls.length =
       (3 : Int).toNat) :=
  ⟨by decide, ⟨by decide, by decide⟩,
   drawGame_overflow gameW2 3 180 30 "white" xy_colour_default (by decide)
     (by decide) (by decide)⟩

/-! ### drawBoard lemmas -/

/-- The nine cells of a 3×3 board flattened in row-major order, each
with the (row, col) position `drawBoard` computes for it. -/
def rowMajor3 (c0 c1 c2 c3 c4 c5 c6 c7 c8 : String) :
    List (Nat × Nat × String) :=
  [(0, 0, c0), (0, 1, c1), (0, 2, c2), (1, 0, c3), (1, 1, c4), (1, 2, c5),
   (2, 0, c6), (2, 1, c7), (2, 2, c8)]

/-- On a 3×3 board the `drawBoard` loop visits the cells exactly like the
`drawGame` loop visits the row-major flattened move list: same cells, same
(row, col) positions, same short-circuiting on a missing colour key. -/
theorem boardLoop3_eq (c0 c1 c2 c3 c4 c5 c6 c7 c8 : String)
    (xy : List (String × String)) (S M : Nat) :
    boardLoop [[c0, c1, c2], [c3, c4, c5], [c6, c7, c8]] xy S M 0 9 =
      gameLoop (rowMajor3 c0 c1 c2 c3 c4 c5 c6 c7 c8) xy S M 0 9 := by
  rcases h0 : pyDictGet xy c0 with _ | v0
  · simp [boardLoop, gameLoop, pyGetI, rowMajor3, h0]
  rcases h1 : pyDictGet xy c1 with _ | v1
  · simp [boardLoop, gameLoop, pyGetI, rowMajor3, h0, h1]
  rcases h2 : pyDictGet xy c2 with _ | v2
  · simp [boardLoop, gameLoop, pyGetI, rowMajor3, h0, h1, h2]
  rcases h3 : pyDictGet xy c3 with _ | v3
  · simp [boardLoop, gameLoop, pyGetI, rowMajor3, h0, h1, h2, h3]
  rcases h4 : pyDictGet xy c4 with _ | v4
  · simp [boardLoop, gameLoop, pyGetI, rowMajor3, h0, h1, h2, h3, h4]
  rcases h5 : pyDictGet xy c5 with _ | v5
  · simp [boardLoop, gameLoop, pyGetI, rowMajor3, h0, h1, h2, h3, h4, h5]
  rcases h6 : pyDictGet xy c6 with _ | v6
  · simp [boardLoop, gameLoop, pyGetI, rowMajor3, h0, h1, h2, h3, h4, h5, h6]
  rcases h7 : pyDictGet xy c7 with _ | v7
  · simp [boardLoop, gameLoop, pyGetI, rowMajor3, h0, h1, h2, h3, h4, h5, h6, h7]
  rcases h8 : pyDictGet xy c8 with _ | v8
  · simp [boardLoop, gameLoop, pyGetI, rowMajor3, h0, h1, h2, h3, h4, h5, h6, h7, h8]
  simp [boardLoop, gameLoop, pyGetI, rowMajor3, h0, h1, h2, h3, h4, h5, h6, h7, h8]

/-- A `gameLoop` run from index 0 that reaches a move whose team is missing
from the colour dict: the moves before it are drawn, the KeyError aborts the
rest. -/
theorem gameLoop_keyError (g1 : List (Nat × Nat × String))
    (m : Nat × Nat × String) (g2 : List (Nat × Nat × String))
    (xy : List (String × String)) (S M : Nat) (b : Nat)
    (hgood : ∀ mv ∈ g1, (pyDictGet xy mv.2.2).isSome)
    (hbad : pyDictGet xy m.2.2 = none) :
    gameLoop (g1 ++ m :: g2) xy S M 0 (g1.length + (1 + b)) =
      (g1.map (mkCall xy S M), some (PyErr.keyError m.2.2)) := by
  have htake : ((g1 ++ m :: g2).drop 0).take g1.length = g1 := by
    rw [List.drop_zero, List.take_left]
  have hfirst := gameLoop_nonneg (g1 ++ m :: g2) xy S M g1.length 0
    (by simp) (by rw [htake]; exact hgood)
  rw [htake] at hfirst
  simp only [Nat.cast_zero] at hfirst
  have hsplit := gameLoop_split (g1 ++ m :: g2) xy S M g1.length (1 + b) 0
    (g1.map (mkCall xy S M)) hfirst
  have hgetm : pyGetI (g1 ++ m :: g2) ((g1.length : Nat) : Int) = some m := by
    unfold pyGetI
    rw [if_neg (by omega), Int.toNat_natCast,
      List.get?_append_right (Nat.le_refl _)]
    simp
  have hstep : gameLoop (g1 ++ m :: g2) xy S M ((g1.length : Nat) : Int) (1 + b) =
      ([], some (PyErr.keyError m.2.2)) := by
    rw [Nat.add_comm 1 b]
    rcases hm : m with ⟨r, c, t⟩
    rw [hm] at hgetm hbad
    simp only [gameLoop, hgetm, hbad]
  rw [show (0 : Int) + (g1.length : Int) = ((g1.length : Nat) : Int) by ring,
    hstep] at hsplit
  rw [hsplit]
  simp

/-- A `gameLoop` run that starts `g0.length` indices into the game and
reaches a move whose team is missing from the colour dict: the window moves
before it are drawn, the KeyError aborts the rest.  This is the loop
`drawGame` runs for a window of `g1.length + 1 + b` most recent moves. -/
theorem gameLoop_keyError_shift (g0 g1 : List (Nat × Nat × String))
    (m : Nat × Nat × String) (g2 : List (Nat × Nat × String))
    (xy : List (String × String)) (S M : Nat) (b : Nat)
    (hgood : ∀ mv ∈ g1, (pyDictGet xy mv.2.2).isSome)
    (hbad : pyDictGet xy m.2.2 = none) :
    gameLoop (g0 ++ (g1 ++ m :: g2)) xy S M (g0.length : Int)
      (g1.length + (1 + b)) =
      (g1.map (mkCall xy S M), some (PyErr.keyError m.2.2)) := by
  have htake : ((g0 ++ (g1 ++ m :: g2)).drop g0.length).take g1.length = g1 := by
    rw [List.drop_left, List.take_left]
  have hfirst := gameLoop_nonneg (g0 ++ (g1 ++ m :: g2)) xy S M g1.length
    g0.length (by simp only [List.length_append, List.length_cons]; omega)
    (by rw [htake]; exact hgood)
  rw [htake] at hfirst
  have hsplit := gameLoop_split (g0 ++ (g1 ++ m :: g2)) xy S M g1.length (1 + b)
    ((g0.length : Nat) : Int) (g1.map (mkCall xy S M)) hfirst
  have hgetm : pyGetI (g0 ++ (g1 ++ m :: g2))
      ((g0.length : Int) + ((g1.length : Nat) : Int)) = some m := by
    unfold pyGetI
    rw [if_neg (by omega)]
    have h1 : (((g0.length : Int) + ((g1.length : Nat) : Int))).toNat =
        (g0 ++ g1).length := by
      simp only [List.length_append]; omega
    rw [h1, ← List.append_assoc, List.get?_append_right (Nat.le_refl _)]
    simp
  have hstep : gameLoop (g0 ++ (g1 ++ m :: g2)) xy S M
      ((g0.length : Int) + ((g1.length : Nat) : Int)) (1 + b) =
      ([], some (PyErr.keyError m.2.2)) := by
    rw [Nat.add_comm 1 b]
    rcases hm : m with ⟨r, c, t⟩
    rw [hm] at hgetm hbad
    simp only [gameLoop, hgetm, hbad]
  rw [hstep] at hsplit
  rw [hsplit]
  simp

/-- Unfolding `drawBoard` on a (syntactically) 3×3 board with `newBoard`
false: no blank board is drawn and the cell loop runs 9 iterations,
equivalently the `gameLoop` over the row-major flattened cells. -/
theorem drawBoard3_eq (c0 c1 c2 c3 c4 c5 c6 c7 c8 : String) (S M : Nat)
    (bc : String) (xy : List (String × String)) :
    drawBoard [[c0, c1, c2], [c3, c4, c5], [c6, c7, c8]] S bc xy M false =
      ⟨callsTrace (gameLoop (rowMajor3 c0 c1 c2 c3 c4 c5 c6 c7 c8) xy S M 0 9).1,
       (gameLoop (rowMajor3 c0 c1 c2 c3 c4 c5 c6 c7 c8) xy S M 0 9).1,
       (gameLoop (rowMajor3 c0 c1 c2 c3 c4 c5 c6 c7 c8) xy S M 0 9).2⟩ := by
  rw [← boardLoop3_eq]
  simp [drawBoard]

/-- `drawMarker` with the empty team string emits only the setup
instructions (shared computation for the board theorems). -/
theorem drawMarker_empty_team (pos : Nat × Nat) (S : Nat) (colour : String)
    (M : Nat) :
    drawMarker "" pos S colour M = [Instr.hideturtle, Instr.color colour] := by
  have h1 : strLower "" ≠ "o" := by decide
  have h2 : strLower "" ≠ "x" := by decide
  simp [drawMarker, h1, h2]

/-! ### Claim theorems: drawBoard (C4, C8) -/

/-- C4 (amended): with the default `newBoard = False`, `drawBoard` on the
all-empty 3×3 board does NOT draw a blank board (no canvas initialization in
the trace); it issues one marker-draw per cell in row-major order
`(0,0), (0,1), …, (2,2)`, each with the background colour `xy_colour[""]`
(`"white"`), and completes without error. -/
theorem drawBoard_all_empty (S M : Nat) (bc : String) :
    (drawBoard emptyBoard3 S bc xy_colour_default M false).trace.countP isInit = 0 ∧
    (drawBoard emptyBoard3 S bc xy_colour_default M false).calls =
      [⟨"", (0, 0), S, "white", M⟩, ⟨"", (0, 1), S, "white", M⟩,
       ⟨"", (0, 2), S, "white", M⟩, ⟨"", (1, 0), S, "white", M⟩,
       ⟨"", (1, 1), S, "white", M⟩, ⟨"", (1, 2), S, "white", M⟩,
       ⟨"", (2, 0), S, "white", M⟩, ⟨"", (2, 1), S, "white", M⟩,
       ⟨"", (2, 2), S, "white", M⟩] ∧
    (drawBoard emptyBoard3 S bc xy_colour_default M false).err = none := by
  have hb : emptyBoard3 = [["", "", ""], ["", "", ""], ["", "", ""]] := rfl
  have hrun := gameLoop_nonneg (rowMajor3 "" "" "" "" "" "" "" "" "")
    xy_colour_default S M 9 0 (by simp [rowMajor3]) (by decide)
  simp only [List.drop_zero, Nat.cast_zero] at hrun
  have htake : (rowMajor3 "" "" "" "" "" "" "" "" "").take 9 =
      rowMajor3 "" "" "" "" "" "" "" "" "" := by simp [rowMajor3]
  rw [htake] at hrun
  rw [hb, drawBoard3_eq, hrun]
  refine ⟨?_, ?_, rfl⟩
  · simp [callsTrace, markerTrace, rowMajor3, mkCall, drawMarker_empty_team,
      isInit, List.countP_cons]
  · simp [rowMajor3, mkCall, pyDictGet, xy_colour_default]

/-- Counterexample to C4 as stated: at the default parameters, the trace of
`drawBoard` on the all-empty 3×3 board contains no canvas initialization at
all, while every blank-board draw (`drawNewBoard`) contains exactly one —
so no blank board is drawn. -/
theorem drawBoard_all_empty_cex :
    ((drawBoard emptyBoard3 180 "white" xy_colour_default 30 false).trace.countP
      isInit = 0) ∧
    (drawNewBoard 180 "white" 30).countP isInit = 1 := by decide

/-- C8 (amended): a cell value / move team missing from the `xy_colour`
mapping makes the draw call fail with the KeyError from the lookup,
surfaced to the caller, and aborts the remainder of the call: the rendered
moves before the offending one are drawn, none at or after it.  For
`drawGame` this holds whenever the offending move lies in the rendered
window: first conjunct, `numMoves < 1` (the whole game is the window);
second conjunct, any window of `numMoves = g1.length + 1 + g2.length ≤
length(game)` most recent moves whose first unmapped move is `m` (this
includes the source default `numMoves = 1` with the offending move last).
For `drawBoard` on a 3×3 board (third conjunct) the offending cell is the
first one, in row-major order, whose value has no colour key. -/
theorem draw_missing_key_aborts (S M : Nat) (bc : String)
    (xy : List (String × String)) :
    (∀ (g1 : List (Nat × Nat × String)) (m : Nat × Nat × String)
       (g2 : List (Nat × Nat × String)) (numMoves : Int),
      numMoves < 1 →
      (∀ mv ∈ g1, (pyDictGet xy mv.2.2).isSome) →
      pyDictGet xy m.2.2 = none →
      (drawGame (g1 ++ m :: g2) numMoves S bc xy M false).err =
        some (PyErr.keyError m.2.2) ∧
      (drawGame (g1 ++ m :: g2) numMoves S bc xy M false).calls =
        g1.map (mkCall xy S M)) ∧
    (∀ (g0 g1 : List (Nat × Nat × String)) (m : Nat × Nat × String)
       (g2 : List (Nat × Nat × String)),
      (∀ mv ∈ g1, (pyDictGet xy mv.2.2).isSome) →
      pyDictGet xy m.2.2 = none →
      (drawGame (g0 ++ (g1 ++ m :: g2))
          ((g1.length + (1 + g2.length) : Nat) : Int) S bc xy M false).err =
        some (PyErr.keyError m.2.2) ∧
      (drawGame (g0 ++ (g1 ++ m :: g2))
          ((g1.length + (1 + g2.length) : Nat) : Int) S bc xy M false).calls =
        g1.map (mkCall xy S M)) ∧
    (∀ (c0 c1 c2 c3 c4 c5 c6 c7 c8 : String) (k : Nat),
      k < 9 →
      (∀ j, j < k →
        (pyDictGet xy (((rowMajor3 c0 c1 c2 c3 c4 c5 c6 c7 c8).getD j
          ((0, 0, "") : Nat × Nat × String)).2.2)).isSome) →
      pyDictGet xy (((rowMajor3 c0 c1 c2 c3 c4 c5 c6 c7 c8).getD k
        ((0, 0, "") : Nat × Nat × String)).2.2) = none →
      (drawBoard [[c0, c1, c2], [c3, c4, c5], [c6, c7, c8]] S bc xy M
          false).err =
        some (PyErr.keyError (((rowMajor3 c0 c1 c2 c3 c4 c5 c6 c7 c8).getD k
          ((0, 0, "") : Nat × Nat × String)).2.2)) ∧
      (drawBoard [[c0, c1, c2], [c3, c4, c5], [c6, c7, c8]] S bc xy M
          false).calls = ((rowMajor3 c0 c1 c2 c3 c4 c5 c6 c7 c8).take k).map (mkCall xy S M)) := by
  refine ⟨?_, ?_, ?_⟩
  · intro g1 m g2 numMoves hnm hgood hbad
    have hcnt : (((g1 ++ m :: g2).length : Int) - 0).toNat =
        g1.length + (1 + g2.length) := by simp; omega
    have hkey := gameLoop_keyError g1 m g2 xy S M g2.length hgood hbad
    simp only [drawGame, if_pos hnm, hcnt, hkey]
    exact ⟨trivial, trivial⟩
  · intro g0 g1 m g2 hgood hbad
    have hnm : ¬ (((g1.length + (1 + g2.length) : Nat) : Int) < 1) := by omega
    have hcast : ((g0 ++ (g1 ++ m :: g2)).length : Int) -
        ((g1.length + (1 + g2.length) : Nat) : Int) = ((g0.length : Nat) : Int) := by
      simp only [List.length_append, List.length_cons]
      omega
    have hcnt : (((g0 ++ (g1 ++ m :: g2)).length : Int) -
        ((g0.length : Nat) : Int)).toNat = g1.length + (1 + g2.length) := by
      simp only [List.length_append, List.length_cons]
      omega
    have hkey := gameLoop_keyError_shift g0 g1 m g2 xy S M g2.length hgood hbad
    simp only [drawGame, if_neg hnm, hcast, hcnt, hkey]
    exact ⟨trivial, trivial⟩
  · intro c0 c1 c2 c3 c4 c5 c6 c7 c8 k hk9 hpre hbad
    rw [drawBoard3_eq]
    interval_cases k
    -- offending cell at row-major position 0
    · have hx := gameLoop_keyError []
        ((0, 0, c0)) [(0, 1, c1), (0, 2, c2), (1, 0, c3), (1, 1, c4), (1, 2, c5), (2, 0, c6), (2, 1, c7), (2, 2, c8)] xy S M 8
        (by intro mv hmv; simp at hmv)
        hbad
      simp only [List.cons_append, List.nil_append, List.length_cons,
        List.length_nil] at hx
      norm_num at hx
      simp [rowMajor3, hx, List.getD]
    -- offending cell at row-major position 1
    · have hx := gameLoop_keyError [(0, 0, c0)]
        ((0, 1, c1)) [(0, 2, c2), (1, 0, c3), (1, 1, c4), (1, 2, c5), (2, 0, c6), (2, 1, c7), (2, 2, c8)] xy S M 7
        (by
        intro mv hmv
        simp only [List.mem_cons, List.not_mem_nil, or_false] at hmv
        rcases hmv with rfl
        · exact hpre 0 (by omega))
        hbad
      simp only [List.cons_append, List.nil_append, List.length_cons,
        List.length_nil] at hx
      norm_num at hx
      simp [rowMajor3, hx, List.getD]
    -- offending cell at row-major position 2
    · have hx := gameLoop_keyError [(0, 0, c0), (0, 1, c1)]
        ((0, 2, c2)) [(1, 0, c3), (1, 1, c4), (1, 2, c5), (2, 0, c6), (2, 1, c7), (2, 2, c8)] xy S M 6
        (by
        intro mv hmv
        simp only [List.mem_cons, List.not_mem_nil, or_false] at hmv
        rcases hmv with rfl | rfl
        · exact hpre 0 (by omega)
        · exact hpre 1 (by omega))
        hbad
      simp only [List.cons_append, List.nil_append, List.length_cons,
        List.length_nil] at hx
      norm_num at hx
      simp [rowMajor3, hx, List.getD]
    -- offending cell at row-major position 3
    · have hx := gameLoop_keyError [(0, 0, c0), (0, 1, c1), (0, 2, c2)]
        ((1, 0, c3)) [(1, 1, c4), (1, 2, c5), (2, 0, c6), (2, 1, c7), (2, 2, c8)] xy S M 5
        (by
        intro mv hmv
        simp only [List.mem_cons, List.not_mem_nil, or_false] at hmv
        rcases hmv with rfl | rfl | rfl
        · exact hpre 0 (by omega)
        · exact hpre 1 (by omega)
        · exact hpre 2 (by omega))
        hbad
      simp only [List.cons_append, List.nil_append, List.length_cons,
        List.length_nil] at hx
      norm_num at hx
      simp [rowMajor3, hx, List.getD]
    -- offending cell at row-major position 4
    · have hx := gameLoop_keyError [(0, 0, c0), (0, 1, c1), (0, 2, c2), (1, 0, c3)]
        ((1, 1, c4)) [(1, 2, c5), (2, 0, c6), (2, 1, c7), (2, 2, c8)] xy S M 4
        (by
        intro mv hmv
        simp only [List.mem_cons, List.not_mem_nil, or_false] at hmv
        rcases hmv with rfl | rfl | rfl | rfl
        · exact hpre 0 (by omega)
        · exact hpre 1 (by omega)
        · exact hpre 2 (by omega)
        · exact hpre 3 (by omega))
        hbad
      simp only [List.cons_append, List.nil_append, List.length_cons,
        List.length_nil] at hx
      norm_num at hx
      simp [rowMajor3, hx, List.getD]
    -- offending cell at row-major position 5
    · have hx := gameLoop_keyError [(0, 0, c0), (0, 1, c1), (0, 2, c2), (1, 0, c3), (1, 1, c4)]
        ((1, 2, c5)) [(2, 0, c6), (2, 1, c7), (2, 2, c8)] xy S M 3
        (by
        intro mv hmv
        simp only [List.mem_cons, List.not_mem_nil, or_false] at hmv
        rcases hmv with rfl | rfl | rfl | rfl | rfl
        · exact hpre 0 (by omega)
        · exact hpre 1 (by omega)
        · exact hpre 2 (by omega)
        · exact hpre 3 (by omega)
        · exact hpre 4 (by omega))
        hbad
      simp only [List.cons_append, List.nil_append, List.length_cons,
        List.length_nil] at hx
      norm_num at hx
      simp [rowMajor3, hx, List.getD]
    -- offending cell at row-major position 6
    · have hx := gameLoop_keyError [(0, 0, c0), (0, 1, c1), (0, 2, c2), (1, 0, c3), (1, 1, c4), (1, 2, c5)]
        ((2, 0, c6)) [(2, 1, c7), (2, 2, c8)] xy S M 2
        (by
        intro mv hmv
        simp only [List.mem_cons, List.not_mem_nil, or_false] at hmv
        rcases hmv with rfl | rfl | rfl | rfl | rfl | rfl
        · exact hpre 0 (by omega)
        · exact hpre 1 (by omega)
        · exact hpre 2 (by omega)
        · exact hpre 3 (by omega)
        · exact hpre 4 (by omega)
        · exact hpre 5 (by omega))
        hbad
      simp only [List.cons_append, List.nil_append, List.length_cons,
        List.length_nil] at hx
      norm_num at hx
      simp [rowMajor3, hx, List.getD]
    -- offending cell at row-major position 7
    · have hx := gameLoop_keyError [(0, 0, c0), (0, 1, c1), (0, 2, c2), (1, 0, c3), (1, 1, c4), (1, 2, c5), (2, 0, c6)]
        ((2, 1, c7)) [(2, 2, c8)] xy S M 1
        (by
        intro mv hmv
        simp only [List.mem_cons, List.not_mem_nil, or_false] at hmv
        rcases hmv with rfl | rfl | rfl | rfl | rfl | rfl | rfl
        · exact hpre 0 (by omega)
        · exact hpre 1 (by omega)
        · exact hpre 2 (by omega)
        · exact hpre 3 (by omega)
        · exact hpre 4 (by omega)
        · exact hpre 5 (by omega)
        · exact hpre 6 (by omega))
        hbad
      simp only [List.cons_append, List.nil_append, List.length_cons,
        List.length_nil] at hx
      norm_num at hx
      simp [rowMajor3, hx, List.getD]
    -- offending cell at row-major position 8
    · have hx := gameLoop_keyError [(0, 0, c0), (0, 1, c1), (0, 2, c2), (1, 0, c3), (1, 1, c4), (1, 2, c5), (2, 0, c6), (2, 1, c7)]
        ((2, 2, c8)) [] xy S M 0
        (by
        intro mv hmv
        simp only [List.mem_cons, List.not_mem_nil, or_false] at hmv
        rcases hmv with rfl | rfl | rfl | rfl | rfl | rfl | rfl | rfl
        · exact hpre 0 (by omega)
        · exact hpre 1 (by omega)
        · exact hpre 2 (by omega)
        · exact hpre 3 (by omega)
        · exact hpre 4 (by omega)
        · exact hpre 5 (by omega)
        · exact hpre 6 (by omega)
        · exact hpre 7 (by omega))
        hbad
      simp only [List.cons_append, List.nil_append, List.length_cons,
        List.length_nil] at hx
      norm_num at hx
      simp [rowMajor3, hx, List.getD]

/-- Counterexample to C8 as stated: a game containing the unmapped team
`"Z"` does not make `drawGame` fail when the rendered window (`numMoves =
1`, the source default) excludes the offending move — the call completes
with no error. -/
theorem draw_missing_key_aborts_cex :
    (drawGame [((0 : Nat), (0 : Nat), "Z"), ((1 : Nat), (1 : Nat), "X")] 1 180
      "white" xy_colour_default 30 false).err = none := by decide

/-- Witness for C8's amended theorem: a KeyError aborts a `drawGame` call on
a three-move game at its middle move (whole-game window), a `drawGame` call
at the source default `numMoves = 1` whose last move is unmapped
(proper-suffix window), and a `drawBoard` call on a 3×3 board at its center
cell. -/
theorem draw_missing_key_aborts_witness :
    (((-1 : Int) < 1) ∧
     (∀ mv ∈ [((0 : Nat), (0 : Nat), "X")],
       (pyDictGet xy_colour_default mv.2.2).isSome) ∧
     pyDictGet xy_colour_default (((1 : Nat), (1 : Nat), "Q") : Nat × Nat × String).2.2 = none ∧
     ((drawGame ([((0 : Nat), (0 : Nat), "X")] ++
         (((1 : Nat), (1 : Nat), "Q") : Nat × Nat × String) ::
           [((2 : Nat), (2 : Nat), "O")]) (-1) 180 "white" xy_colour_default 30
         false).err =
       some (PyErr.keyError (((1 : Nat), (1 : Nat), "Q") : Nat × Nat × String).2.2) ∧
      (drawGame ([((0 : Nat), (0 : Nat), "X")] ++
         (((1 : Nat), (1 : Nat), "Q") : Nat × Nat × String) ::
           [((2 : Nat), (2 : Nat), "O")]) (-1) 180 "white" xy_colour_default 30
         false).calls =
        [((0 : Nat), (0 : Nat), "X")].map (mkCall xy_colour_default 180 30))) ∧
    ((∀ mv ∈ ([] : List (Nat × Nat × String)),
       (pyDictGet xy_colour_default mv.2.2).isSome) ∧
     pyDictGet xy_colour_default
       (((1 : Nat), (1 : Nat), "Q") : Nat × Nat × String).2.2 = none ∧
     ((drawGame [((0 : Nat), (0 : Nat), "X"), ((1 : Nat), (1 : Nat), "Q")] 1 180
         "white" xy_colour_default 30 false).err =
       some (PyErr.keyError
         (((1 : Nat), (1 : Nat), "Q") : Nat × Nat × String).2.2) ∧
      (drawGame [((0 : Nat), (0 : Nat), "X"), ((1 : Nat), (1 : Nat), "Q")] 1 180
         "white" xy_colour_default 30 false).calls = [])) ∧
    ((4 : Nat) < 9 ∧
     (∀ j, j < 4 →
       (pyDictGet xy_colour_default
         (((rowMajor3 "X" "X" "X" "X" "q" "X" "X" "X" "X").getD j
           ((0, 0, "") : Nat × Nat × String)).2.2)).isSome) ∧
     pyDictGet xy_colour_default
       (((rowMajor3 "X" "X" "X" "X" "q" "X" "X" "X" "X").getD 4
         ((0, 0, "") : Nat × Nat × String)).2.2) = none ∧
     ((drawBoard [["X", "X", "X"], ["X", "q", "X"], ["X", "X", "X"]] 180 "white"
         xy_colour_default 30 false).err =
       some (PyErr.keyError
         (((rowMajor3 "X" "X" "X" "X" "q" "X" "X" "X" "X").getD 4
           ((0, 0, "") : Nat × Nat × String)).2.2)) ∧
      (drawBoard [["X", "X", "X"], ["X", "q", "X"], ["X", "X", "X"]] 180 "white"
         xy_colour_default 30 false).calls =
        ((rowMajor3 "X" "X" "X" "X" "q" "X" "X" "X" "X").take 4).map
          (mkCall xy_colour_default 180 30))) :=
  ⟨⟨by decide, by decide, by decide,
    (draw_missing_key_aborts 180 30 "white" xy_colour_default).1
      [((0 : Nat), (0 : Nat), "X")] (((1 : Nat), (1 : Nat), "Q"))
      [((2 : Nat), (2 : Nat), "O")] (-1) (by decide) (by decide) (by decide)⟩,
   ⟨by decide, by decide,
    (draw_missing_key_aborts 180 30 "white" xy_colour_default).2.1
      [((0 : Nat), (0 : Nat), "X")] [] (((1 : Nat), (1 : Nat), "Q")) []
      (by decide) (by decide)⟩,
   ⟨by decide, by intro j hj; interval_cases j <;> decide,
    by decide,
    (draw_missing_key_aborts 180 30 "white" xy_colour_default).2.2
      "X" "X" "X" "X" "q" "X" "X" "X" "X" 4 (by decide)
      (by intro j hj; interval_cases j <;> decide) (by decide)⟩⟩
